import Mathlib

/-!
# Verification of `python/paddle/distribution/dirichlet.py`

A shallow embedding of the `Dirichlet` distribution class.  All tensor work in
the source file happens along the last axis (elementwise arithmetic, `sum(-1)`
with or without `keepdim`, and broadcasting of a kept dimension of size 1), so
a tensor is modelled as its batch-flattened list of last-axis slices
(`Tensor2 α := List (List α)`); a tensor already reduced over the last axis is
a `List α`, one scalar per batch element.  The scalar type is any `Field`
(the intended instance is `ℝ`; keeping it a parameter keeps every definition
executable, e.g. at `ℚ`).  The transcendental kernels
(`log`, `exp`, `lgamma`, `digamma`) are native ops of the host framework, out
of scope for this file, and are taken as parameters in a `ScalarOps` record.

Constructor shape checking and sampling work on the shape level; for these a
shaped tensor `STensor` (shape, dtype, flat data) is used, and the two opaque
framework primitives reached by `sample` (the native `dirichlet` op and
`Tensor.expand`) are fields of an `Engine` record.
-/

namespace PaddleDirichlet

variable (α : Type) [Field α]

/-- A tensor seen as the batch-flattened list of its last-axis slices. -/
abbrev Tensor2 := List (List α)

variable {α}

/-- One step of last-axis broadcasting, as the paddle engine applies it to the
slices of two tensors whose other axes already agree: a slice of length 1
(a kept reduced dimension) is broadcast against the other slice, otherwise the
operation is elementwise. -/
def bcastRow (op : α → α → α) (r s : List α) : List α :=
  if s.length = 1 then r.map (fun a => op a (s.headD 0))
  else if r.length = 1 then s.map (fun b => op (r.headD 0) b)
  else List.zipWith op r s

/-- Binary tensor operation with last-axis broadcasting (model of the engine's
elementwise binary ops `+ - * / pow` on the shapes this file produces). -/
def bop (op : α → α → α) (a b : Tensor2 α) : Tensor2 α :=
  List.zipWith (bcastRow op) a b

/-- Elementwise unary tensor operation (model of `paddle.log`, `paddle.exp`,
`paddle.lgamma`, `paddle.digamma` and arithmetic with a Python scalar). -/
def emap (f : α → α) (t : Tensor2 α) : Tensor2 α :=
  t.map (List.map f)

/-- `t.sum(-1, keepdim=True)`: each last-axis slice becomes the one-element
slice holding its sum. -/
def sumKeep (t : Tensor2 α) : Tensor2 α :=
  t.map (fun r => [r.sum])

/-- `t.sum(-1)`: the last axis is summed away, one scalar per batch element. -/
def sumLast (t : Tensor2 α) : List α :=
  t.map List.sum

/-- Elementwise unary operation on a tensor already reduced over the last
axis. -/
def rmap (f : α → α) (v : List α) : List α :=
  v.map f

/-- Elementwise binary operation on two tensors already reduced over the last
axis (their shapes coincide, no broadcasting arises). -/
def rzip (op : α → α → α) (a b : List α) : List α :=
  List.zipWith op a b

/-- `t.shape[-1]`, read off the first last-axis slice. -/
def lastLen (t : Tensor2 α) : ℕ :=
  (t.headD []).length

/-- The four transcendental scalar kernels the file delegates to the host
tensor engine; they are opaque native code, so the model is parametric in
them. -/
structure ScalarOps (α : Type) where
  log : α → α
  exp : α → α
  lgamma : α → α
  digamma : α → α

namespace Dirichlet

/-- `Dirichlet.mean`:
`self.concentration / self.concentration.sum(-1, keepdim=True)`. -/
def mean (concentration : Tensor2 α) : Tensor2 α :=
  bop (· / ·) concentration (sumKeep concentration)

/-- `Dirichlet.variance`:
`concentration0 = self.concentration.sum(-1, keepdim=True)` and then
`(self.concentration * (concentration0 - self.concentration)) /
 (concentration0.pow(2) * (concentration0 + 1))`. -/
def variance (concentration : Tensor2 α) : Tensor2 α :=
  let concentration0 := sumKeep concentration
  bop (· / ·)
    (bop (· * ·) concentration (bop (· - ·) concentration0 concentration))
    (bop (· * ·) (emap (· ^ 2) concentration0) (emap (· + 1) concentration0))

/-- `Dirichlet.log_prob`:
`(paddle.log(value) * (self.concentration - 1.0)).sum(-1)
 + paddle.lgamma(self.concentration.sum(-1))
 - paddle.lgamma(self.concentration).sum(-1)`. -/
def log_prob (S : ScalarOps α) (concentration value : Tensor2 α) : List α :=
  rzip (· - ·)
    (rzip (· + ·)
      (sumLast (bop (· * ·) (emap S.log value) (emap (· - 1) concentration)))
      (rmap S.lgamma (sumLast concentration)))
    (sumLast (emap S.lgamma concentration))

/-- `Dirichlet.prob`: `paddle.exp(self.log_prob(value))`. -/
def prob (S : ScalarOps α) (concentration value : Tensor2 α) : List α :=
  rmap S.exp (log_prob S concentration value)

/-- `Dirichlet.entropy`:
`concentration0 = self.concentration.sum(-1)`, `k = self.concentration.shape[-1]`,
and then
`paddle.lgamma(self.concentration).sum(-1) - paddle.lgamma(concentration0)
 - (k - concentration0) * paddle.digamma(concentration0)
 - ((self.concentration - 1.0) * paddle.digamma(self.concentration)).sum(-1)`. -/
def entropy (S : ScalarOps α) (concentration : Tensor2 α) : List α :=
  let concentration0 := sumLast concentration
  let k : ℕ := lastLen concentration
  rzip (· - ·)
    (rzip (· - ·)
      (rzip (· - ·)
        (sumLast (emap S.lgamma concentration))
        (rmap S.lgamma concentration0))
      (rzip (· * ·)
        (rmap (fun x => (k : α) - x) concentration0)
        (rmap S.digamma concentration0)))
    (sumLast (bop (· * ·) (emap (· - 1) concentration) (emap S.digamma concentration)))

/-- `Dirichlet._natural_parameters`: the one-element tuple
`(self.concentration,)`. -/
def _natural_parameters (concentration : Tensor2 α) : List (Tensor2 α) :=
  [concentration]

/-- `Dirichlet._log_normalizer`:
`x.lgamma().sum(-1) - paddle.lgamma(x.sum(-1))`. -/
def _log_normalizer (S : ScalarOps α) (x : Tensor2 α) : List α :=
  rzip (· - ·) (sumLast (emap S.lgamma x)) (rmap S.lgamma (sumLast x))

end Dirichlet

/-! ## Shaped tensors: constructor validation and sampling

The constructor and `sample` work at the level of tensor shapes and of the
framework's opaque primitives, so for them a tensor keeps its `shape`
(`concentration.dim()` is `shape.length`, the element count is `shape.prod`),
its `dtype` (checked by `check_variable_and_dtype` in graph mode) and its flat
data. -/

/-- A tensor with its metadata, as the constructor and `sample` see it. -/
structure STensor (α : Type) where
  shape : List ℕ
  dtype : String
  data : List α

/-- The shape bookkeeping held by the distribution base class. -/
structure DistShapes where
  batch_shape : List ℕ
  event_shape : List ℕ
deriving DecidableEq, Repr

/-- Modelled from the spec: `Distribution.__init__` (the
`paddle.distribution` base class, not included under `src/`) records its two
arguments as the distribution's batch shape and event shape. -/
def Distribution.init (batch_shape event_shape : List ℕ) : DistShapes :=
  { batch_shape := batch_shape, event_shape := event_shape }

/-- Modelled from the spec: `Distribution._extend_shape` (base class, not
included under `src/`) concatenates the sample shape with the batch and event
shapes. -/
def Distribution.extend_shape (shapes : DistShapes) (sample_shape : List ℕ) :
    List ℕ :=
  sample_shape ++ shapes.batch_shape ++ shapes.event_shape

/-- A constructed `Dirichlet` object: the `self.concentration` attribute set
by `__init__` plus the base-class shape bookkeeping set by
`super().__init__`. -/
structure DirichletObj (α : Type) where
  concentration : STensor α
  shapes : DistShapes

/-- `Dirichlet.__init__`: raise `ValueError` when
`concentration.dim() < 1 or math.prod(concentration.shape) == 0`, otherwise
set `self.concentration` and call
`super().__init__(concentration.shape[:-1], concentration.shape[-1:])`
(`shape[:-1]` is `dropLast`, `shape[-1:]` is `drop (length - 1)`). -/
def Dirichlet.init (concentration : STensor α) :
    Except String (DirichletObj α) :=
  if concentration.shape.length < 1 ∨ concentration.shape.prod = 0 then
    .error "`concentration` parameter must be at least one dimensional"
  else
    .ok { concentration := concentration
          shapes := Distribution.init concentration.shape.dropLast
            (concentration.shape.drop (concentration.shape.length - 1)) }

/-- Execution mode of the framework: `in_dynamic_or_pir_mode()` true or
false. -/
inductive ExecMode where
  | dynamicOrPir
  | staticGraph
deriving DecidableEq

/-- The two opaque framework primitives reached by `sample`: the native
`dirichlet` op (as `paddle._C_ops.dirichlet` in dynamic/PIR mode and as the
graph node appended by `LayerHelper.append_op` in static-graph mode) and
`Tensor.expand`.  Their internals live outside this file, so the model is
parametric in them. -/
structure Engine (α : Type) where
  cOpsDirichlet : STensor α → STensor α
  appendDirichletOp : STensor α → STensor α
  expand : STensor α → List ℕ → STensor α

/-- The dtype whitelist of `check_variable_and_dtype` in `_dirichlet`. -/
def dirichletDtypes : List String :=
  ["float16", "float32", "float64", "uint16"]

/-- The module-level `_dirichlet` helper: in dynamic/PIR mode it returns
`paddle._C_ops.dirichlet(concentration)`; in static-graph mode it checks the
dtype (`check_variable_and_dtype` raises on an unsupported dtype) and appends
a `dirichlet` op whose output variable it returns. -/
def _dirichlet (E : Engine α) (mode : ExecMode) (concentration : STensor α) :
    Except String (STensor α) :=
  match mode with
  | .dynamicOrPir => .ok (E.cOpsDirichlet concentration)
  | .staticGraph =>
      if concentration.dtype ∈ dirichletDtypes then
        .ok (E.appendDirichletOp concentration)
      else
        .error "check_variable_and_dtype: unsupported dtype for dirichlet"

/-- `Dirichlet.sample`: normalize `shape` to a tuple (a no-op for the `List`
model) and return
`_dirichlet(self.concentration.expand(self._extend_shape(shape)))`. -/
def Dirichlet.sample (E : Engine α) (mode : ExecMode) (o : DirichletObj α)
    (shape : List ℕ) : Except String (STensor α) :=
  _dirichlet E mode
    (E.expand o.concentration (Distribution.extend_shape o.shapes shape))

/-! ## Method calls as state transformers

Python methods receive the instance and may in principle mutate it; the
faithful state-passing embedding of each method of this class returns its
value together with the (untouched) instance, so that statelessness is a
theorem about the embedding rather than an assumption of it. -/

/-- A `Dirichlet` instance as the formula methods see it: the
`self.concentration` attribute, viewed along the last axis. -/
structure DirichletInstance (α : Type) where
  concentration : Tensor2 α

/-- `self.mean` as a state transformer. -/
def Dirichlet.meanM (d : DirichletInstance α) :
    Tensor2 α × DirichletInstance α :=
  (Dirichlet.mean d.concentration, d)

/-- `self.variance` as a state transformer. -/
def Dirichlet.varianceM (d : DirichletInstance α) :
    Tensor2 α × DirichletInstance α :=
  (Dirichlet.variance d.concentration, d)

/-- `self.prob(value)` as a state transformer. -/
def Dirichlet.probM (S : ScalarOps α) (d : DirichletInstance α)
    (value : Tensor2 α) : List α × DirichletInstance α :=
  (Dirichlet.prob S d.concentration value, d)

/-- `self.log_prob(value)` as a state transformer. -/
def Dirichlet.log_probM (S : ScalarOps α) (d : DirichletInstance α)
    (value : Tensor2 α) : List α × DirichletInstance α :=
  (Dirichlet.log_prob S d.concentration value, d)

/-- `self.entropy()` as a state transformer. -/
def Dirichlet.entropyM (S : ScalarOps α) (d : DirichletInstance α) :
    List α × DirichletInstance α :=
  (Dirichlet.entropy S d.concentration, d)

/-- `self._natural_parameters` as a state transformer. -/
def Dirichlet.natural_parametersM (d : DirichletInstance α) :
    List (Tensor2 α) × DirichletInstance α :=
  (Dirichlet._natural_parameters d.concentration, d)

/-- `self._log_normalizer(x)` as a state transformer. -/
def Dirichlet.log_normalizerM (S : ScalarOps α) (d : DirichletInstance α)
    (x : Tensor2 α) : List α × DirichletInstance α :=
  (Dirichlet._log_normalizer S x, d)

/-- `self.sample(shape)` as a state transformer on the constructed object
(which also carries the batch and event shapes). -/
def Dirichlet.sampleM (E : Engine α) (mode : ExecMode) (o : DirichletObj α)
    (shape : List ℕ) : Except String (STensor α) × DirichletObj α :=
  (Dirichlet.sample E mode o shape, o)

/-- A concrete, fully evaluable choice of scalar kernels over `ℚ`, used to
instantiate parametric theorems at concrete inputs. -/
def idOps : ScalarOps ℚ :=
  { log := id, exp := id, lgamma := id, digamma := id }

/-- A concrete, fully evaluable choice of the opaque framework primitives,
used to instantiate parametric theorems at concrete inputs. -/
def idEngine : Engine ℚ :=
  { cOpsDirichlet := id, appendDirichletOp := id, expand := fun t _ => t }

/-- A concrete constructed `Dirichlet` object over `ℚ`. -/
def sampleObj : DirichletObj ℚ :=
  { concentration := { shape := [3], dtype := "float32", data := [1, 2, 3] }
    shapes := { batch_shape := [], event_shape := [3] } }

/-! ## Helper lemmas about the engine model -/

lemma bcastRow_single_right (op : α → α → α) (r : List α) (y : α) :
    bcastRow op r [y] = r.map (fun a => op a y) := by
  simp [bcastRow]

lemma bcastRow_single_left (op : α → α → α) (x : α) (s : List α) :
    bcastRow op [x] s = s.map (fun b => op x b) := by
  match s with
  | [] => simp [bcastRow]
  | [y] => simp [bcastRow]
  | y :: z :: t => simp [bcastRow]

lemma bcastRow_eq_zipWith (op : α → α → α) (r s : List α)
    (h : r.length = s.length) :
    bcastRow op r s = List.zipWith op r s := by
  by_cases hs : s.length = 1
  · obtain ⟨y, rfl⟩ := List.length_eq_one.mp hs
    obtain ⟨x, rfl⟩ := List.length_eq_one.mp (h.trans hs)
    simp [bcastRow]
  · have hr : ¬r.length = 1 := fun hr => hs (h ▸ hr)
    rw [bcastRow, if_neg hs, if_neg hr]

lemma bcastRow_self_map (op : α → α → α) (g : α → α) (r : List α) :
    bcastRow op r (r.map g) = r.map (fun a => op a (g a)) := by
  rw [bcastRow_eq_zipWith _ _ _ (by simp), List.zipWith_map_right,
    List.zipWith_same]

lemma bcastRow_map_map (op : α → α → α) (f g : α → α) (r : List α) :
    bcastRow op (r.map f) (r.map g) = r.map (fun a => op (f a) (g a)) := by
  rw [bcastRow_eq_zipWith _ _ _ (by simp), List.zipWith_map,
    List.zipWith_same]

lemma zipWith_congr_fun {β γ δ : Type} (f g : β → γ → δ)
    (h : ∀ a b, f a b = g a b) (l : List β) (l' : List γ) :
    List.zipWith f l l' = List.zipWith g l l' := by
  have hfg : f = g := funext fun a => funext fun b => h a b
  rw [hfg]

/-- `mean` computed slice by slice. -/
lemma Dirichlet.mean_eq_map (c : Tensor2 α) :
    Dirichlet.mean c = c.map (fun r => r.map (fun a => a / r.sum)) := by
  induction c with
  | nil => rfl
  | cons r t ih =>
      simpa [Dirichlet.mean, bop, sumKeep, bcastRow_single_right] using ih

/-- `variance` computed slice by slice. -/
lemma Dirichlet.variance_eq_map (c : Tensor2 α) :
    Dirichlet.variance c = c.map (fun r =>
      r.map (fun a => a * (r.sum - a) / (r.sum ^ 2 * (r.sum + 1)))) := by
  induction c with
  | nil => rfl
  | cons r t ih =>
      simp only [Dirichlet.variance, bop, sumKeep, emap, List.map_cons,
        List.zipWith_cons_cons, List.map_map] at ih ⊢
      refine congrArg₂ List.cons ?_ ih
      rw [bcastRow_single_left, bcastRow_self_map]
      simp [bcastRow_single_right, bcastRow, List.map_map, Function.comp]

/-- `log_prob` computed slice by slice (the last-axis multiplication still in
engine broadcasting form). -/
lemma Dirichlet.log_prob_eq_zipWith (S : ScalarOps α)
    (conc value : Tensor2 α) :
    Dirichlet.log_prob S conc value
      = List.zipWith (fun cr vr =>
          (bcastRow (· * ·) (vr.map S.log) (cr.map (fun a => a - 1))).sum
            + S.lgamma cr.sum - (cr.map S.lgamma).sum) conc value := by
  induction conc generalizing value with
  | nil => simp [Dirichlet.log_prob, rzip, rmap, sumLast, bop, emap]
  | cons cr ct ih =>
      cases value with
      | nil => simp [Dirichlet.log_prob, rzip, rmap, sumLast, bop, emap]
      | cons vr vt =>
          simpa [Dirichlet.log_prob, rzip, rmap, sumLast, bop, emap]
            using ih vt

/-- The batch length of `entropy`. -/
lemma Dirichlet.entropy_length (S : ScalarOps α) (conc : Tensor2 α) :
    (Dirichlet.entropy S conc).length = conc.length := by
  simp [Dirichlet.entropy, rzip, rmap, sumLast, bop, emap]

/-! ## Claim theorems -/

/-- C1: for every concentration tensor, the `mean` property returns the
concentration divided by its sum over the last axis (kept for broadcasting):
each component `i` of each batch slice of the mean is the concentration
component `α_i` divided by the sum of the slice's components. -/
theorem mean_eq_concentration_div_sum (conc : Tensor2 α) (b i : ℕ)
    (hb : b < conc.length) (hi : i < (conc.getD b []).length) :
    ((Dirichlet.mean conc).getD b []).getD i 0
      = (conc.getD b []).getD i 0 / (conc.getD b []).sum := by
  have hb2 : b < (conc.map (fun r => r.map (fun a => a / r.sum))).length := by
    simpa using hb
  have h1 : (Dirichlet.mean conc).getD b []
      = conc[b].map (fun a => a / conc[b].sum) := by
    rw [Dirichlet.mean_eq_map, List.getD_eq_getElem _ _ hb2, List.getElem_map]
  have hcb : conc.getD b [] = conc[b] := List.getD_eq_getElem conc [] hb
  rw [hcb] at hi ⊢
  rw [h1, List.getD_eq_getElem _ _ (by simpa using hi), List.getElem_map,
    List.getD_eq_getElem _ _ hi]

/-- Witness for C1 at the concentration `[[1, 2, 3]]`, batch slice 0,
component 1. -/
theorem mean_eq_concentration_div_sum_witness :
    0 < ([[(1 : ℚ), 2, 3]] : Tensor2 ℚ).length
    ∧ 1 < (([[(1 : ℚ), 2, 3]] : Tensor2 ℚ).getD 0 []).length
    ∧ ((Dirichlet.mean ([[(1 : ℚ), 2, 3]] : Tensor2 ℚ)).getD 0 []).getD 1 0
        = (([[(1 : ℚ), 2, 3]] : Tensor2 ℚ).getD 0 []).getD 1 0
            / (([[(1 : ℚ), 2, 3]] : Tensor2 ℚ).getD 0 []).sum :=
  ⟨by decide, by decide,
    mean_eq_concentration_div_sum [[(1 : ℚ), 2, 3]] 0 1 (by decide) (by decide)⟩

/-- C2: for every concentration tensor, the `variance` property returns, in
each component, `α_i * (α₀ - α_i) / (α₀ ^ 2 * (α₀ + 1))` with `α₀` the sum of
the slice over the last axis. -/
theorem variance_eq_closed_form (conc : Tensor2 α) (b i : ℕ)
    (hb : b < conc.length) (hi : i < (conc.getD b []).length) :
    ((Dirichlet.variance conc).getD b []).getD i 0
      = (conc.getD b []).getD i 0
          * ((conc.getD b []).sum - (conc.getD b []).getD i 0)
          / ((conc.getD b []).sum ^ 2 * ((conc.getD b []).sum + 1)) := by
  have hb2 : b < (conc.map (fun r =>
      r.map (fun a => a * (r.sum - a) / (r.sum ^ 2 * (r.sum + 1))))).length := by
    simpa using hb
  have h1 : (Dirichlet.variance conc).getD b []
      = conc[b].map (fun a =>
          a * (conc[b].sum - a) / (conc[b].sum ^ 2 * (conc[b].sum + 1))) := by
    rw [Dirichlet.variance_eq_map, List.getD_eq_getElem _ _ hb2,
      List.getElem_map]
  have hcb : conc.getD b [] = conc[b] := List.getD_eq_getElem conc [] hb
  rw [hcb] at hi ⊢
  rw [h1, List.getD_eq_getElem _ _ (by simpa using hi), List.getElem_map,
    List.getD_eq_getElem _ _ hi]

/-- Witness for C2 at the concentration `[[1, 2, 3]]`, batch slice 0,
component 2. -/
theorem variance_eq_closed_form_witness :
    0 < ([[(1 : ℚ), 2, 3]] : Tensor2 ℚ).length
    ∧ 2 < (([[(1 : ℚ), 2, 3]] : Tensor2 ℚ).getD 0 []).length
    ∧ ((Dirichlet.variance ([[(1 : ℚ), 2, 3]] : Tensor2 ℚ)).getD 0 []).getD 2 0
        = (([[(1 : ℚ), 2, 3]] : Tensor2 ℚ).getD 0 []).getD 2 0
            * ((([[(1 : ℚ), 2, 3]] : Tensor2 ℚ).getD 0 []).sum
                - (([[(1 : ℚ), 2, 3]] : Tensor2 ℚ).getD 0 []).getD 2 0)
            / ((([[(1 : ℚ), 2, 3]] : Tensor2 ℚ).getD 0 []).sum ^ 2
                * ((([[(1 : ℚ), 2, 3]] : Tensor2 ℚ).getD 0 []).sum + 1)) :=
  ⟨by decide, by decide,
    variance_eq_closed_form [[(1 : ℚ), 2, 3]] 0 2 (by decide) (by decide)⟩

/-- C3: for every concentration and value tensor (of matching batch length
and matching slice length at the inspected batch index), `log_prob` is the
closed-form log-density in log-gamma terms:
`Σ_i (α_i - 1) * log x_i + lgamma (Σ_i α_i) - Σ_i lgamma α_i`, all sums over
the last axis. -/
theorem log_prob_eq_closed_form (S : ScalarOps α) (conc value : Tensor2 α)
    (b : ℕ) (hb : b < conc.length) (hlen : value.length = conc.length)
    (hrow : (value.getD b []).length = (conc.getD b []).length) :
    (Dirichlet.log_prob S conc value).getD b 0
      = (List.zipWith (fun a x => (a - 1) * S.log x)
          (conc.getD b []) (value.getD b [])).sum
        + S.lgamma (conc.getD b []).sum
        - ((conc.getD b []).map S.lgamma).sum := by
  have hb2 : b < (List.zipWith (fun cr vr =>
      (bcastRow (· * ·) (vr.map S.log) (cr.map (fun a => a - 1))).sum
        + S.lgamma cr.sum - (cr.map S.lgamma).sum) conc value).length := by
    rw [List.length_zipWith, hlen, Nat.min_self]; exact hb
  have hvb : value.getD b [] = value[b] :=
    List.getD_eq_getElem value [] (by rw [hlen]; exact hb)
  have hcb : conc.getD b [] = conc[b] := List.getD_eq_getElem conc [] hb
  rw [hvb, hcb] at hrow ⊢
  rw [Dirichlet.log_prob_eq_zipWith, List.getD_eq_getElem _ _ hb2,
    List.getElem_zipWith,
    bcastRow_eq_zipWith _ _ _ (by simpa using hrow),
    List.zipWith_map, List.zipWith_comm,
    zipWith_congr_fun _ (fun a x => (a - 1) * S.log x)
      (fun a x => mul_comm (S.log x) (a - 1))]

/-- Witness for C3 at concentration `[[2, 4]]`, value `[[5, 7]]`, batch
slice 0, with the identity scalar kernels over `ℚ`. -/
theorem log_prob_eq_closed_form_witness :
    0 < ([[(2 : ℚ), 4]] : Tensor2 ℚ).length
    ∧ ([[(5 : ℚ), 7]] : Tensor2 ℚ).length = ([[(2 : ℚ), 4]] : Tensor2 ℚ).length
    ∧ (([[(5 : ℚ), 7]] : Tensor2 ℚ).getD 0 []).length
        = (([[(2 : ℚ), 4]] : Tensor2 ℚ).getD 0 []).length
    ∧ (Dirichlet.log_prob idOps [[(2 : ℚ), 4]] [[(5 : ℚ), 7]]).getD 0 0
        = (List.zipWith (fun a x => (a - 1) * idOps.log x)
            (([[(2 : ℚ), 4]] : Tensor2 ℚ).getD 0 [])
            (([[(5 : ℚ), 7]] : Tensor2 ℚ).getD 0 [])).sum
          + idOps.lgamma (([[(2 : ℚ), 4]] : Tensor2 ℚ).getD 0 []).sum
          - ((([[(2 : ℚ), 4]] : Tensor2 ℚ).getD 0 []).map idOps.lgamma).sum :=
  ⟨by decide, by decide, by decide,
    log_prob_eq_closed_form idOps [[(2 : ℚ), 4]] [[(5 : ℚ), 7]] 0
      (by decide) (by decide) (by decide)⟩

/-- C4: for every concentration tensor whose last-axis slices all have length
`k`, `entropy` is the closed-form digamma-term expression
`Σ_i lgamma α_i - lgamma α₀ - (k - α₀) * digamma α₀
 - Σ_i (α_i - 1) * digamma α_i`
with `α₀` the last-axis sum; equivalently (the `log B(α)` regrouping)
`(Σ_i lgamma α_i - lgamma α₀) + (α₀ - k) * digamma α₀
 - Σ_i (α_i - 1) * digamma α_i`. -/
theorem entropy_eq_closed_form (S : ScalarOps α) (conc : Tensor2 α)
    (b k : ℕ) (hb : b < conc.length) (hk : ∀ r ∈ conc, r.length = k) :
    (Dirichlet.entropy S conc).getD b 0
      = ((conc.getD b []).map S.lgamma).sum
        - S.lgamma (conc.getD b []).sum
        - ((k : α) - (conc.getD b []).sum) * S.digamma (conc.getD b []).sum
        - ((conc.getD b []).map (fun a => (a - 1) * S.digamma a)).sum
    ∧ (Dirichlet.entropy S conc).getD b 0
      = (((conc.getD b []).map S.lgamma).sum - S.lgamma (conc.getD b []).sum)
        + ((conc.getD b []).sum - (k : α)) * S.digamma (conc.getD b []).sum
        - ((conc.getD b []).map (fun a => (a - 1) * S.digamma a)).sum := by
  have hcb : conc.getD b [] = conc[b] := List.getD_eq_getElem conc [] hb
  have hlast : lastLen conc = k := by
    cases conc with
    | nil => simp at hb
    | cons r t => simpa [lastLen] using hk r (List.mem_cons_self r t)
  have h1 : (Dirichlet.entropy S conc).getD b 0
      = (conc[b].map S.lgamma).sum - S.lgamma conc[b].sum
        - ((k : α) - conc[b].sum) * S.digamma conc[b].sum
        - (conc[b].map (fun a => (a - 1) * S.digamma a)).sum := by
    rw [List.getD_eq_getElem _ _ (by rw [Dirichlet.entropy_length]; exact hb)]
    simp only [Dirichlet.entropy, rzip, rmap, sumLast, bop, emap,
      List.getElem_zipWith, List.getElem_map]
    rw [bcastRow_map_map]
    simp only [hlast]
  rw [hcb]
  exact ⟨h1, h1.trans (by ring)⟩

/-- Witness for C4 at concentration `[[1, 2, 3]]`, batch slice 0, `k = 3`,
with the identity scalar kernels over `ℚ`. -/
theorem entropy_eq_closed_form_witness :
    0 < ([[(1 : ℚ), 2, 3]] : Tensor2 ℚ).length
    ∧ (∀ r ∈ ([[(1 : ℚ), 2, 3]] : Tensor2 ℚ), r.length = 3)
    ∧ (Dirichlet.entropy idOps [[(1 : ℚ), 2, 3]]).getD 0 0
        = ((([[(1 : ℚ), 2, 3]] : Tensor2 ℚ).getD 0 []).map idOps.lgamma).sum
          - idOps.lgamma (([[(1 : ℚ), 2, 3]] : Tensor2 ℚ).getD 0 []).sum
          - ((3 : ℚ) - (([[(1 : ℚ), 2, 3]] : Tensor2 ℚ).getD 0 []).sum)
              * idOps.digamma (([[(1 : ℚ), 2, 3]] : Tensor2 ℚ).getD 0 []).sum
          - ((([[(1 : ℚ), 2, 3]] : Tensor2 ℚ).getD 0 []).map
              (fun a => (a - 1) * idOps.digamma a)).sum :=
  ⟨by decide, by decide,
    ((entropy_eq_closed_form idOps [[(1 : ℚ), 2, 3]] 0 3
      (by decide) (by decide)).1).trans (by norm_num)⟩

/-- C6: `_natural_parameters` is the one-element tuple holding the
concentration, and `_log_normalizer` is the closed form
`Σ_i lgamma x_i - lgamma (Σ_i x_i)` with sums over the last axis. -/
theorem natural_parameter_form (S : ScalarOps α) (conc x : Tensor2 α)
    (b : ℕ) (hb : b < x.length) :
    Dirichlet._natural_parameters conc = [conc]
    ∧ (Dirichlet._log_normalizer S x).getD b 0
        = ((x.getD b []).map S.lgamma).sum - S.lgamma (x.getD b []).sum := by
  refine ⟨rfl, ?_⟩
  have hxb : x.getD b [] = x[b] := List.getD_eq_getElem x [] hb
  rw [hxb]
  rw [List.getD_eq_getElem _ _
    (by simpa [Dirichlet._log_normalizer, rzip, rmap, sumLast, emap] using hb)]
  simp only [Dirichlet._log_normalizer, rzip, rmap, sumLast, emap,
    List.getElem_zipWith, List.getElem_map]

/-- Witness for C6 at concentration `[[1, 2]]`, argument `[[3, 4]]`, batch
slice 0, with the identity scalar kernels over `ℚ`. -/
theorem natural_parameter_form_witness :
    0 < ([[(3 : ℚ), 4]] : Tensor2 ℚ).length
    ∧ Dirichlet._natural_parameters ([[(1 : ℚ), 2]] : Tensor2 ℚ)
        = [[[(1 : ℚ), 2]]]
    ∧ (Dirichlet._log_normalizer idOps [[(3 : ℚ), 4]]).getD 0 0
        = ((([[(3 : ℚ), 4]] : Tensor2 ℚ).getD 0 []).map idOps.lgamma).sum
          - idOps.lgamma (([[(3 : ℚ), 4]] : Tensor2 ℚ).getD 0 []).sum :=
  ⟨by decide,
    (natural_parameter_form idOps [[(1 : ℚ), 2]] [[(3 : ℚ), 4]] 0 (by decide)).1,
    (natural_parameter_form idOps [[(1 : ℚ), 2]] [[(3 : ℚ), 4]] 0 (by decide)).2⟩

/-- C9: `prob` is exactly the elementwise exponential of `log_prob` — as the
whole tensor (`prob` is literally `exp` mapped over `log_prob`) and at every
batch component. -/
theorem prob_eq_exp_log_prob (S : ScalarOps α) (conc value : Tensor2 α)
    (b : ℕ) (hb : b < (Dirichlet.log_prob S conc value).length) :
    Dirichlet.prob S conc value
        = rmap S.exp (Dirichlet.log_prob S conc value)
    ∧ (Dirichlet.prob S conc value).getD b 0
        = S.exp ((Dirichlet.log_prob S conc value).getD b 0) := by
  refine ⟨rfl, ?_⟩
  rw [Dirichlet.prob, rmap, List.getD_eq_getElem _ _ (by simpa using hb),
    List.getElem_map, List.getD_eq_getElem _ _ hb]

/-- Witness for C9 at concentration `[[2, 4]]`, value `[[5, 7]]`, batch
slice 0, with the identity scalar kernels over `ℚ`. -/
theorem prob_eq_exp_log_prob_witness :
    0 < (Dirichlet.log_prob idOps [[(2 : ℚ), 4]] [[(5 : ℚ), 7]]).length
    ∧ Dirichlet.prob idOps [[(2 : ℚ), 4]] [[(5 : ℚ), 7]]
        = rmap idOps.exp (Dirichlet.log_prob idOps [[(2 : ℚ), 4]] [[(5 : ℚ), 7]])
    ∧ (Dirichlet.prob idOps [[(2 : ℚ), 4]] [[(5 : ℚ), 7]]).getD 0 0
        = idOps.exp
            ((Dirichlet.log_prob idOps [[(2 : ℚ), 4]] [[(5 : ℚ), 7]]).getD 0 0) :=
  ⟨by decide,
    (prob_eq_exp_log_prob idOps [[(2 : ℚ), 4]] [[(5 : ℚ), 7]] 0 (by decide)).1,
    (prob_eq_exp_log_prob idOps [[(2 : ℚ), 4]] [[(5 : ℚ), 7]] 0 (by decide)).2⟩

omit [Field α] in
/-- C5: constructing a `Dirichlet` raises `ValueError` if and only if the
concentration has fewer than one dimension or zero elements (the product of
its shape is 0); this is the only failure mode, and exactly when it does not
fire an object is produced (on failure, no object — hence no concentration
attribute — exists). -/
theorem init_valueerror_iff (t : STensor α) :
    ((∃ e, Dirichlet.init t = .error e)
        ↔ t.shape.length < 1 ∨ t.shape.prod = 0)
    ∧ ((∃ o, Dirichlet.init t = .ok o)
        ↔ ¬(t.shape.length < 1 ∨ t.shape.prod = 0)) := by
  by_cases h : t.shape.length < 1 ∨ t.shape.prod = 0
  · have hinit : Dirichlet.init t
        = .error "`concentration` parameter must be at least one dimensional" := by
      simp only [Dirichlet.init]
      rw [if_pos h]
    refine ⟨iff_of_true ⟨_, hinit⟩ h, iff_of_false ?_ (fun hc => hc h)⟩
    rintro ⟨o, ho⟩
    rw [hinit] at ho
    exact Except.noConfusion ho
  · have hinit : Dirichlet.init t
        = .ok { concentration := t
                shapes := Distribution.init t.shape.dropLast
                  (t.shape.drop (t.shape.length - 1)) } := by
      simp only [Dirichlet.init]
      rw [if_neg h]
    refine ⟨iff_of_false ?_ h, iff_of_true ⟨_, hinit⟩ h⟩
    rintro ⟨e, he⟩
    rw [hinit] at he
    exact Except.noConfusion he

omit [Field α] in
/-- C10: for every concentration the constructor accepts, the constructed
object stores the concentration, its batch shape is `concentration.shape[:-1]`
and its event shape is `concentration.shape[-1:]`; for a one-dimensional
concentration the batch shape is empty and the event shape is the full
shape. -/
theorem init_batch_event_shapes (t : STensor α)
    (h : ¬(t.shape.length < 1 ∨ t.shape.prod = 0)) :
    ∃ o, Dirichlet.init t = .ok o
      ∧ o.concentration = t
      ∧ o.shapes.batch_shape = t.shape.dropLast
      ∧ o.shapes.event_shape = t.shape.drop (t.shape.length - 1)
      ∧ (t.shape.length = 1 →
          o.shapes.batch_shape = [] ∧ o.shapes.event_shape = t.shape) := by
  simp only [Dirichlet.init, if_neg h]
  refine ⟨_, rfl, rfl, rfl, rfl, fun h1 => ?_⟩
  obtain ⟨a, ha⟩ := List.length_eq_one.mp h1
  simp [Distribution.init, ha]

/-- Witness for C10 at a concentration of shape `[3]` (one-dimensional,
three elements). -/
theorem init_batch_event_shapes_witness :
    ¬(sampleObj.concentration.shape.length < 1
        ∨ sampleObj.concentration.shape.prod = 0)
    ∧ ∃ o, Dirichlet.init sampleObj.concentration = .ok o
        ∧ o.concentration = sampleObj.concentration
        ∧ o.shapes.batch_shape = sampleObj.concentration.shape.dropLast
        ∧ o.shapes.event_shape = sampleObj.concentration.shape.drop
            (sampleObj.concentration.shape.length - 1)
        ∧ (sampleObj.concentration.shape.length = 1 →
            o.shapes.batch_shape = []
            ∧ o.shapes.event_shape = sampleObj.concentration.shape) :=
  ⟨by decide, init_batch_event_shapes sampleObj.concentration (by decide)⟩

omit [Field α] in
/-- C7: `sample` performs no numerical work of its own: in dynamic/PIR mode
it returns exactly the native `dirichlet` primitive applied to the
concentration expanded to the extended shape
(sample shape ++ batch shape ++ event shape), and in static-graph mode, for a
supported dtype, exactly the output variable of the single appended
`dirichlet` op on that same expanded tensor. -/
theorem sample_delegates_to_primitive (E : Engine α) (o : DirichletObj α)
    (shape : List ℕ) :
    Dirichlet.sample E .dynamicOrPir o shape
        = .ok (E.cOpsDirichlet (E.expand o.concentration
            (shape ++ o.shapes.batch_shape ++ o.shapes.event_shape)))
    ∧ ((∀ t sh, (E.expand t sh).dtype = t.dtype) →
        o.concentration.dtype ∈ dirichletDtypes →
        Dirichlet.sample E .staticGraph o shape
          = .ok (E.appendDirichletOp (E.expand o.concentration
              (shape ++ o.shapes.batch_shape ++ o.shapes.event_shape)))) := by
  refine ⟨rfl, fun hpres hd => ?_⟩
  simp [Dirichlet.sample, _dirichlet, Distribution.extend_shape, hpres, hd]

/-- Witness for C7 at a concrete engine, object and sample shape `[2]`. -/
theorem sample_delegates_to_primitive_witness :
    sampleObj.concentration.dtype ∈ dirichletDtypes
    ∧ Dirichlet.sample idEngine .dynamicOrPir sampleObj [2]
        = .ok (idEngine.cOpsDirichlet (idEngine.expand sampleObj.concentration
            ([2] ++ sampleObj.shapes.batch_shape
              ++ sampleObj.shapes.event_shape)))
    ∧ Dirichlet.sample idEngine .staticGraph sampleObj [2]
        = .ok (idEngine.appendDirichletOp
            (idEngine.expand sampleObj.concentration
              ([2] ++ sampleObj.shapes.batch_shape
                ++ sampleObj.shapes.event_shape))) :=
  ⟨by decide,
    (sample_delegates_to_primitive idEngine sampleObj [2]).1,
    (sample_delegates_to_primitive idEngine sampleObj [2]).2
      (fun _ _ => rfl) (by decide)⟩

/-- C8: every method of the class is stateless: each method, run as a state
transformer, returns the instance unchanged (for `sample`, the constructed
object with its batch and event shapes unchanged), and calling a
deterministic formula method again right after a first call returns an equal
result. -/
theorem methods_stateless (S : ScalarOps α) (d : DirichletInstance α)
    (value x : Tensor2 α) (E : Engine α) (mode : ExecMode)
    (o : DirichletObj α) (shape : List ℕ) :
    (Dirichlet.meanM d).2 = d
    ∧ (Dirichlet.varianceM d).2 = d
    ∧ (Dirichlet.probM S d value).2 = d
    ∧ (Dirichlet.log_probM S d value).2 = d
    ∧ (Dirichlet.entropyM S d).2 = d
    ∧ (Dirichlet.natural_parametersM d).2 = d
    ∧ (Dirichlet.log_normalizerM S d x).2 = d
    ∧ (Dirichlet.sampleM E mode o shape).2 = o
    ∧ (Dirichlet.meanM (Dirichlet.meanM d).2).1 = (Dirichlet.meanM d).1
    ∧ (Dirichlet.varianceM (Dirichlet.varianceM d).2).1
        = (Dirichlet.varianceM d).1
    ∧ (Dirichlet.probM S (Dirichlet.probM S d value).2 value).1
        = (Dirichlet.probM S d value).1
    ∧ (Dirichlet.log_probM S (Dirichlet.log_probM S d value).2 value).1
        = (Dirichlet.log_probM S d value).1
    ∧ (Dirichlet.entropyM S (Dirichlet.entropyM S d).2).1
        = (Dirichlet.entropyM S d).1
    ∧ (Dirichlet.natural_parametersM (Dirichlet.natural_parametersM d).2).1
        = (Dirichlet.natural_parametersM d).1
    ∧ (Dirichlet.log_normalizerM S (Dirichlet.log_normalizerM S d x).2 x).1
        = (Dirichlet.log_normalizerM S d x).1 :=
  ⟨rfl, rfl, rfl, rfl, rfl, rfl, rfl, rfl, rfl, rfl, rfl, rfl, rfl, rfl, rfl⟩

end PaddleDirichlet
